import Mathlib

/-! # GPU particles demo: host-side frame loop

A shallow embedding of `src/main.c`: the startup code (particle count, particle
initialisation, tunable defaults) and one iteration of the `while` loop (instance
count, compute pass, render pass, GUI pass).

Conventions.
* A C `float` is an IEEE 754 binary32 number. A finite float is represented by its
  value in `ℚ`, and every float operation of the program (`+`, `-`, `*`, `/`, the
  conversion of an `int` or of a `double` literal) is the exact operation followed by
  `round32`, rounding to nearest with ties to even, subnormals included; each operation
  is rounded on its own, as with `FLT_EVAL_METHOD` 0. Infinities
  and NaN are not represented: an operation whose exact result is outside `FitsF32`
  gives an infinity in C, and statements about the value of such an operation carry
  `FitsF32` as an assumption.
* C `int` values are integers (`ℤ`); no integer operation of the program leaves the
  32-bit range.
* Calls into raylib / raygui whose result depends on the outside world
  (`GetFrameTime`, `GetRandomValue`, `GuiSlider`, `GuiButton`, `IsKeyPressed`)
  are inputs of the model: the frame takes a `FrameInput`, startup takes the
  stream of random integers.
-/

namespace GpuParticles

/-! ## Binary floating point -/

/-- Round to the nearest integer, ties to the even one. -/
def roundNearestEven (x : ℚ) : ℤ :=
  if x - ⌊x⌋ < 1 / 2 then ⌊x⌋
  else if 1 / 2 < x - ⌊x⌋ then ⌊x⌋ + 1
  else if ⌊x⌋ % 2 = 0 then ⌊x⌋ else ⌊x⌋ + 1

/-- Exponent of the unit in the last place of `q` in a binary format with `prec`
significand bits and least normal exponent `emin`. -/
def ulpExp (prec emin : ℤ) (q : ℚ) : ℤ := max (Int.log 2 |q|) emin - (prec - 1)

/-- Rounding of `q` to the nearest number of the format (ties to even), without the
upper end of the exponent range. -/
def roundBinary (prec emin : ℤ) (q : ℚ) : ℚ :=
  (roundNearestEven (q / 2 ^ ulpExp prec emin q) : ℚ) * 2 ^ ulpExp prec emin q

/-- Rounding to binary32, the C `float`. -/
def round32 (q : ℚ) : ℚ := roundBinary 24 (-126) q

/-- Rounding to binary64, the C `double`. -/
def round64 (q : ℚ) : ℚ := roundBinary 53 (-1022) q

/-- The exact results that binary32 rounds to a finite float: magnitudes below the
midpoint of the largest finite float and `2^128`. -/
def FitsF32 (q : ℚ) : Prop := |q| < 2 ^ 128 - 2 ^ 103

instance (q : ℚ) : Decidable (FitsF32 q) := by
  unfold FitsF32; infer_instance

/-! ## Startup -/

/-- The C constant `INT_MAX` for a 32-bit `int`. -/
def INT_MAX : ℤ := 2147483647

/-- Conversion `(int)` of a `float`: truncation toward zero. -/
def truncToInt (q : ℚ) : ℤ := Int.tdiv q.num (q.den : ℤ)

/-- Function `GetRandomFloat` (main.c:9-11); `r` is the result of `GetRandomValue(0, INT_MAX)`.
The C expression parses as `from + (((to-from)*(float)r) / INT_MAX)`, all in `float`:
the subtraction, the conversion of `r`, the product, the conversion of `INT_MAX`, the
quotient and the sum are each rounded. -/
def GetRandomFloat (from_ to_ : ℚ) (r : ℤ) : ℚ :=
  round32 (from_ +
    round32 (round32 (round32 (to_ - from_) * round32 (r : ℚ)) / round32 (INT_MAX : ℚ)))

/-- raylib `Vector4`. -/
structure Vector4 where
  x : ℚ
  y : ℚ
  z : ℚ
  w : ℚ
  deriving DecidableEq

/-- The particle count the program works with when the initialiser of `numParticles`
(main.c:40) has the value `initialiser`: the declaration stores the value as written,
and no statement of main.c checks it or rounds it up afterwards. -/
def particleCount (initialiser : ℤ) : ℤ := initialiser

/-- The particle count, `int numParticles = 1024*100;` (main.c:40). -/
def numParticles : ℤ := particleCount (1024 * 100)

/-- The value stored into `positions[i]` (main.c:47-52). `rnd k` is the result of the
`k`-th call of `GetRandomValue(0, INT_MAX)`; three calls are made per particle (C leaves
the order of the three calls inside the initialiser open; x, y, z is used here). -/
def initPosition (rnd : ℕ → ℤ) (i : ℕ) : Vector4 :=
  { x := GetRandomFloat (-0.5) 0.5 (rnd (3 * i))
    y := GetRandomFloat (-0.5) 0.5 (rnd (3 * i + 1))
    z := GetRandomFloat (-0.5) 0.5 (rnd (3 * i + 2))
    w := 0 }

/-- The value stored into `velocities[i]` (main.c:53). -/
def initVelocity (_i : ℕ) : Vector4 := { x := 0, y := 0, z := 0, w := 0 }

/-- The two host arrays filled by the loop at main.c:44-54. -/
structure Particles where
  positions : List Vector4
  velocities : List Vector4

/-- The initialisation loop `for (int i = 0; i < n; i++)` (main.c:44-54). -/
def initParticles (rnd : ℕ → ℤ) (n : ℤ) : Particles :=
  { positions := (List.range n.toNat).map (initPosition rnd)
    velocities := (List.range n.toNat).map initVelocity }

/-- The scalars the overlay can change, plus elapsed time (main.c:83-89). -/
structure Tunables where
  time : ℚ
  timeScale : ℚ
  sigma : ℚ
  rho : ℚ
  beta : ℚ
  particleScale : ℚ
  instances_x1000 : ℚ
  deriving DecidableEq

/-- The initialisers before the loop (main.c:83-89). `0.2f` is the float nearest to 0.2;
`8.0/3.0` is a `double` quotient, converted to `float` by the initialisation. -/
def startup : Tunables :=
  { time := 0
    timeScale := round32 0.2
    sigma := 10
    rho := 28
    beta := round32 (round64 (8.0 / 3.0))
    particleScale := 1.0
    instances_x1000 := 100.0 }

/-! ## One frame -/

/-- What the outside world contributes to one iteration of the loop. A slider is given
by its effect on the bound variable: `slide v lo hi` is the value of `*value` after
`GuiSlider(..., &value, lo, hi)` when it was `v` before. -/
structure FrameInput where
  deltaTime : ℚ
  slideInstances : ℚ → ℚ → ℚ → ℚ
  slideScale : ℚ → ℚ → ℚ → ℚ
  slideSpeed : ℚ → ℚ → ℚ → ℚ
  slideSigma : ℚ → ℚ → ℚ → ℚ
  slideRho : ℚ → ℚ → ℚ → ℚ
  slideBeta : ℚ → ℚ → ℚ → ℚ
  restartButton : Bool
  spacePressed : Bool
  resetButton : Bool

/-- The instance count, `int numInstances = (int)(instances_x1000/1000*numParticles);`
(main.c:93), for a particle count `n`: `1000` and `n` are converted to `float`, the
quotient and then the product are computed in `float`, and the result is truncated. -/
def numInstances (instances_x1000 : ℚ) (n : ℤ) : ℤ :=
  truncToInt (round32 (round32 (instances_x1000 / round32 1000) * round32 (n : ℚ)))

/-- The six uniforms set at main.c:100-105, by location. -/
structure Uniforms where
  time : ℚ
  timeScale : ℚ
  deltaTime : ℚ
  sigma : ℚ
  rho : ℚ
  beta : ℚ
  deriving DecidableEq

/-- The uniforms of the compute pass (main.c:100-105). -/
def computeUniforms (s : Tunables) (deltaTime : ℚ) : Uniforms :=
  { time := s.time
    timeScale := s.timeScale
    deltaTime := deltaTime
    sigma := s.sigma
    rho := s.rho
    beta := s.beta }

/-- First argument of `rlComputeShaderDispatch` (main.c:112): C integer division of
non-negative operands. -/
def dispatchCount (n : ℤ) : ℤ := Int.tdiv n 1024

/-- The six `GuiSlider` calls (main.c:149-154). -/
def guiSliders (inp : FrameInput) (s : Tunables) : Tunables :=
  { s with
    instances_x1000 := inp.slideInstances s.instances_x1000 0 1000
    particleScale := inp.slideScale s.particleScale 0 5
    timeScale := inp.slideSpeed s.timeScale 0 1.0
    sigma := inp.slideSigma s.sigma 0 20
    rho := inp.slideRho s.rho 0 30
    beta := inp.slideBeta s.beta 0 10 }

/-- The statement `time += deltaTime;` (main.c:156), a `float` addition: the exact sum
rounded to binary32. Faithful to the code while the sum is in `FitsF32`. -/
def advanceTime (deltaTime : ℚ) (s : Tunables) : Tunables :=
  { s with time := round32 (s.time + deltaTime) }

/-- The condition of the Restart branch (main.c:157). -/
def restartFires (inp : FrameInput) : Bool := inp.restartButton || inp.spacePressed

/-- The Restart branch (main.c:157-159). -/
def restartBranch (fires : Bool) (s : Tunables) : Tunables :=
  if fires then { s with time := 0 } else s

/-- The Reset branch (main.c:160-168). -/
def resetBranch (fires : Bool) (s : Tunables) : Tunables :=
  if fires then
    { s with
      time := 0
      timeScale := round32 0.2
      sigma := 10
      rho := 28
      beta := round32 (round64 (8.0 / 3.0))
      particleScale := 1.0
      instances_x1000 := 100.0 }
  else s

/-- The tunables right before the Restart branch: after the sliders and `time += deltaTime`. -/
def beforeRestart (inp : FrameInput) (s : Tunables) : Tunables :=
  advanceTime inp.deltaTime (guiSliders inp s)

/-- The part of the GUI pass that writes tunables (main.c:149-168). -/
def guiPass (inp : FrameInput) (s : Tunables) : Tunables :=
  resetBranch inp.resetButton (restartBranch (restartFires inp) (beforeRestart inp s))

/-- What one iteration hands to the graphics device. -/
structure FrameEffects where
  uniforms : Uniforms
  workGroups : ℤ
  particleScale : ℚ
  drawInstances : ℤ

/-- One iteration of the loop body (main.c:92-174): the device calls it makes and the
tunables at its end. -/
def frame (s : Tunables) (inp : FrameInput) : FrameEffects × Tunables :=
  let deltaTime := inp.deltaTime
  let n := numInstances s.instances_x1000 numParticles
  ({ uniforms := computeUniforms s deltaTime
     workGroups := dispatchCount numParticles
     particleScale := s.particleScale
     drawInstances := n },
   guiPass inp s)

/-- The tunables after a sequence of frames, starting from the initialisers. -/
def run (inputs : List FrameInput) : Tunables :=
  inputs.foldl (fun s inp => (frame s inp).2) startup

/-- A slider that clamps into `[lo, hi]`, as a concrete `GuiSlider` effect. -/
def clampSlider (v lo hi : ℚ) : ℚ := max lo (min hi v)

/-- A frame input in which nothing is touched: sliders keep their value, no button. -/
def idleInput (deltaTime : ℚ) : FrameInput :=
  { deltaTime := deltaTime
    slideInstances := fun v _ _ => v
    slideScale := fun v _ _ => v
    slideSpeed := fun v _ _ => v
    slideSigma := fun v _ _ => v
    slideRho := fun v _ _ => v
    slideBeta := fun v _ _ => v
    restartButton := false
    spacePressed := false
    resetButton := false }

/-- A frame input in which the Sigma slider clamps and the Rho slider is dragged to its
maximum; no button. -/
def editInput : FrameInput :=
  { idleInput 1 with slideSigma := clampSlider, slideRho := fun _ _ hi => hi }

/-- A frame input in which only the Reset button is pressed. -/
def resetInput : FrameInput := { idleInput 1 with resetButton := true }

/-- A frame input in which only the space key is pressed. -/
def spaceInput : FrameInput := { idleInput 1 with spacePressed := true }

/-- The float `0.1f`, that is `13421773 / 2^27`. -/
def tenth32 : ℚ := 13421773 / 134217728

/-- The float `0.2f`, that is `13421773 / 2^26`. -/
def fifth32 : ℚ := 13421773 / 67108864

/-- The slider ranges of main.c:149-154, as a predicate on the tunables. -/
def InBounds (s : Tunables) : Prop :=
  (0 ≤ s.instances_x1000 ∧ s.instances_x1000 ≤ 1000) ∧
  (0 ≤ s.particleScale ∧ s.particleScale ≤ 5) ∧
  (0 ≤ s.timeScale ∧ s.timeScale ≤ 1) ∧
  (0 ≤ s.sigma ∧ s.sigma ≤ 20) ∧
  (0 ≤ s.rho ∧ s.rho ≤ 30) ∧
  (0 ≤ s.beta ∧ s.beta ≤ 10)

instance (s : Tunables) : Decidable (InBounds s) := by
  unfold InBounds; infer_instance

/-- A slider effect that keeps a value of `[lo, hi]` inside `[lo, hi]`. -/
def StaysInRange (slide : ℚ → ℚ → ℚ → ℚ) (lo hi : ℚ) : Prop :=
  ∀ v, lo ≤ v → v ≤ hi → lo ≤ slide v lo hi ∧ slide v lo hi ≤ hi

/-- Every slider of the frame keeps its variable inside its own range (main.c:149-154). -/
def SlidersInRange (inp : FrameInput) : Prop :=
  StaysInRange inp.slideInstances 0 1000 ∧
  StaysInRange inp.slideScale 0 5 ∧
  StaysInRange inp.slideSpeed 0 1.0 ∧
  StaysInRange inp.slideSigma 0 20 ∧
  StaysInRange inp.slideRho 0 30 ∧
  StaysInRange inp.slideBeta 0 10

/-! ## Rounding lemmas -/

lemma roundNearestEven_floor_le (x : ℚ) : ⌊x⌋ ≤ roundNearestEven x := by
  unfold roundNearestEven
  split_ifs <;> omega

lemma roundNearestEven_le_floor_succ (x : ℚ) : roundNearestEven x ≤ ⌊x⌋ + 1 := by
  unfold roundNearestEven
  split_ifs <;> omega

lemma le_roundNearestEven (x : ℚ) (n : ℤ) (h : (n : ℚ) ≤ x) : n ≤ roundNearestEven x :=
  le_trans (Int.le_floor.mpr h) (roundNearestEven_floor_le x)

lemma roundNearestEven_le (x : ℚ) (n : ℤ) (h : x ≤ (n : ℚ)) : roundNearestEven x ≤ n := by
  rcases eq_or_lt_of_le h with heq | hlt
  · subst heq
    unfold roundNearestEven
    simp
  · have : ⌊x⌋ < n := Int.floor_lt.mpr hlt
    have := roundNearestEven_le_floor_succ x
    omega

lemma roundNearestEven_sub_abs_le (x : ℚ) : |(roundNearestEven x : ℚ) - x| ≤ 1 / 2 := by
  have h1 := Int.floor_le x
  have h2 := Int.lt_floor_add_one x
  unfold roundNearestEven
  rw [abs_le]
  split_ifs with ha hb hc
  · constructor <;> linarith
  · push_cast; constructor <;> linarith
  · push_neg at ha hb
    constructor <;> linarith
  · push_neg at ha hb
    push_cast; constructor <;> linarith


lemma roundBinary_zero (prec emin : ℤ) : roundBinary prec emin 0 = 0 := by
  simp [roundBinary, roundNearestEven]

lemma ulpExp_le (prec emin j : ℤ) (q : ℚ) (hq0 : q ≠ 0) (hq : |q| < 2 ^ (j + prec))
    (hj : emin - (prec - 1) ≤ j) : ulpExp prec emin q ≤ j := by
  have hpos : 0 < |q| := abs_pos.mpr hq0
  have hlog : Int.log 2 |q| < j + prec := by
    rw [← Int.lt_zpow_iff_log_lt (by norm_num) hpos]
    simpa using hq
  unfold ulpExp
  have := max_le (a := Int.log 2 |q|) (b := emin) (c := j + (prec - 1)) (by omega) (by omega)
  omega

lemma zpow_two_split (t j : ℤ) (h : t ≤ j) :
    (2 : ℚ) ^ j = (((2 : ℤ) ^ (j - t).toNat : ℤ) : ℚ) * 2 ^ t := by
  have h2 : (2 : ℚ) ≠ 0 := by norm_num
  have : j = ((j - t).toNat : ℤ) + t := by omega
  conv_lhs => rw [this]
  rw [zpow_add₀ h2, zpow_natCast]
  push_cast
  rfl

/-- Rounding does not cross a value of the target grid. -/
lemma roundBinary_grid (prec emin j k : ℤ) (q : ℚ) (hq : |q| < 2 ^ (j + prec))
    (hj : emin - (prec - 1) ≤ j) :
    (q ≤ (k : ℚ) * 2 ^ j → roundBinary prec emin q ≤ (k : ℚ) * 2 ^ j) ∧
      ((k : ℚ) * 2 ^ j ≤ q → (k : ℚ) * 2 ^ j ≤ roundBinary prec emin q) := by
  by_cases hq0 : q = 0
  · subst hq0
    rw [roundBinary_zero]
    exact ⟨id, id⟩
  have ht := ulpExp_le prec emin j q hq0 hq hj
  have hpos : (0 : ℚ) < 2 ^ ulpExp prec emin q := by positivity
  have hc : (k : ℚ) * 2 ^ j
      = ((k * (2 : ℤ) ^ (j - ulpExp prec emin q).toNat : ℤ) : ℚ) * 2 ^ ulpExp prec emin q := by
    rw [zpow_two_split _ _ ht]
    push_cast
    ring
  rw [hc]
  unfold roundBinary
  constructor
  · intro h
    apply mul_le_mul_of_nonneg_right _ hpos.le
    have : q / 2 ^ ulpExp prec emin q ≤ ((k * (2 : ℤ) ^ (j - ulpExp prec emin q).toNat : ℤ) : ℚ) := by
      rw [div_le_iff₀ hpos]; exact h
    exact_mod_cast roundNearestEven_le _ _ this
  · intro h
    apply mul_le_mul_of_nonneg_right _ hpos.le
    have : ((k * (2 : ℤ) ^ (j - ulpExp prec emin q).toNat : ℤ) : ℚ) ≤ q / 2 ^ ulpExp prec emin q := by
      rw [le_div_iff₀ hpos]; exact h
    exact_mod_cast le_roundNearestEven _ _ this

/-- The rounding error is at most half a unit in the last place. -/
lemma roundBinary_error (prec emin j : ℤ) (q : ℚ) (hq : |q| < 2 ^ (j + prec))
    (hj : emin - (prec - 1) ≤ j) : |roundBinary prec emin q - q| ≤ 2 ^ j / 2 := by
  by_cases hq0 : q = 0
  · subst hq0
    rw [roundBinary_zero]
    simp
    positivity
  have ht := ulpExp_le prec emin j q hq0 hq hj
  have hpos : (0 : ℚ) < 2 ^ ulpExp prec emin q := by positivity
  have hmono : (2 : ℚ) ^ ulpExp prec emin q ≤ 2 ^ j := zpow_le_zpow_right₀ (by norm_num) ht
  have he := roundNearestEven_sub_abs_le (q / 2 ^ ulpExp prec emin q)
  have hrew : roundBinary prec emin q - q
      = ((roundNearestEven (q / 2 ^ ulpExp prec emin q) : ℚ) - q / 2 ^ ulpExp prec emin q)
        * 2 ^ ulpExp prec emin q := by
    unfold roundBinary
    field_simp
  rw [hrew, abs_mul, abs_of_pos hpos]
  calc _ ≤ 1 / 2 * (2 : ℚ) ^ ulpExp prec emin q := mul_le_mul_of_nonneg_right he hpos.le
    _ ≤ 1 / 2 * 2 ^ j := by linarith
    _ = 2 ^ j / 2 := by ring

/-- Evaluation of the rounding inside a known binade. -/
lemma roundBinary_eval (prec emin e m : ℤ) (q : ℚ) (h1 : (2 : ℚ) ^ e ≤ |q|)
    (h2 : |q| < 2 ^ (e + 1)) (he : emin ≤ e)
    (hm : roundNearestEven (q / 2 ^ (e - (prec - 1))) = m) :
    roundBinary prec emin q = (m : ℚ) * 2 ^ (e - (prec - 1)) := by
  have hpos : 0 < |q| := lt_of_lt_of_le (by positivity) h1
  have hlog : Int.log 2 |q| = e := by
    apply le_antisymm
    · have : Int.log 2 |q| < e + 1 := by
        rw [← Int.lt_zpow_iff_log_lt (by norm_num) hpos]
        simpa using h2
      omega
    · rw [← Int.zpow_le_iff_le_log (by norm_num) hpos]
      simpa using h1
  have ht : ulpExp prec emin q = e - (prec - 1) := by
    unfold ulpExp
    rw [hlog, max_eq_left he]
  unfold roundBinary
  rw [ht, hm]

lemma roundNearestEven_eval_lo (x : ℚ) (f : ℤ) (h1 : (f : ℚ) ≤ x) (h2 : x < f + 1 / 2) :
    roundNearestEven x = f := by
  have hf : ⌊x⌋ = f := by
    rw [Int.floor_eq_iff]; constructor <;> linarith
  unfold roundNearestEven
  rw [hf, if_pos (by linarith)]

lemma roundNearestEven_eval_hi (x : ℚ) (f : ℤ) (h1 : (f : ℚ) - 1 / 2 < x) (h2 : x ≤ f) :
    roundNearestEven x = f := by
  rcases eq_or_lt_of_le h2 with heq | hlt
  · exact roundNearestEven_eval_lo x f heq.ge (by linarith)
  have hf : ⌊x⌋ = f - 1 := by
    rw [Int.floor_eq_iff]; push_cast; constructor <;> linarith
  unfold roundNearestEven
  rw [hf, if_neg (by push_cast; linarith), if_pos (by push_cast; linarith)]
  omega

lemma roundBinary_nonneg (prec emin : ℤ) (q : ℚ) (h : 0 ≤ q) : 0 ≤ roundBinary prec emin q := by
  unfold roundBinary
  have hpos : (0 : ℚ) < 2 ^ ulpExp prec emin q := by positivity
  have h0 : ((0 : ℤ) : ℚ) ≤ q / 2 ^ ulpExp prec emin q := by
    push_cast; exact div_nonneg h hpos.le
  have := le_roundNearestEven _ 0 h0
  exact mul_nonneg (by exact_mod_cast this) hpos.le

/-- The relative rounding error of a result in the normal range. -/
lemma roundBinary_rel_error (prec emin : ℤ) (q : ℚ) (hq : (2 : ℚ) ^ emin ≤ |q|) :
    |roundBinary prec emin q - q| ≤ |q| / 2 ^ prec := by
  have hpos : 0 < |q| := lt_of_lt_of_le (by positivity) hq
  have hlo : emin ≤ Int.log 2 |q| := by
    rw [← Int.zpow_le_iff_le_log (by norm_num) hpos]
    simpa using hq
  have hup : |q| < 2 ^ (Int.log 2 |q| - (prec - 1) + prec) := by
    have := Int.lt_zpow_succ_log_self (b := 2) (by norm_num) |q|
    have e : Int.log 2 |q| - (prec - 1) + prec = Int.log 2 |q| + 1 := by ring
    rw [e]
    simpa using this
  have herr := roundBinary_error prec emin (Int.log 2 |q| - (prec - 1)) q hup (by omega)
  have hle : (2 : ℚ) ^ Int.log 2 |q| ≤ |q| := by
    simpa using Int.zpow_log_le_self (b := 2) (by norm_num) hpos
  have h2 : (2 : ℚ) ≠ 0 := by norm_num
  have e2 : (2 : ℚ) ^ (Int.log 2 |q| - (prec - 1)) / 2 = 2 ^ Int.log 2 |q| / 2 ^ prec := by
    rw [zpow_sub₀ h2, zpow_sub₀ h2, zpow_one]
    field_simp
    ring
  rw [e2] at herr
  have hp : (0 : ℚ) < 2 ^ prec := by positivity
  exact le_trans herr (div_le_div_of_nonneg_right hle hp.le)

lemma round32_grid (j k : ℤ) (q : ℚ) (hq : |q| < 2 ^ (j + 24)) (hj : -149 ≤ j) :
    (q ≤ (k : ℚ) * 2 ^ j → round32 q ≤ (k : ℚ) * 2 ^ j) ∧
      ((k : ℚ) * 2 ^ j ≤ q → (k : ℚ) * 2 ^ j ≤ round32 q) :=
  roundBinary_grid 24 (-126) j k q hq (by omega)

/-- An integer below `2^24` in magnitude is a float. -/
lemma round32_intCast (k : ℤ) (hk : |(k : ℚ)| < 2 ^ 24) : round32 (k : ℚ) = k := by
  have h := round32_grid 0 k (k : ℚ)
    (by rw [show ((0 : ℤ) + 24) = ((24 : ℕ) : ℤ) from rfl, zpow_natCast]; exact hk)
    (by norm_num)
  simp only [zpow_zero, mul_one] at h
  exact le_antisymm (h.1 le_rfl) (h.2 le_rfl)

lemma round32_nonneg (q : ℚ) (h : 0 ≤ q) : 0 ≤ round32 q := roundBinary_nonneg _ _ q h

/-- Rounding keeps a value of `[0, k]` inside `[0, k]`, for an integer `k` below `2^24`. -/
lemma round32_mem_Icc (k : ℤ) (q : ℚ) (hk : (k : ℚ) < 2 ^ 24) (h0 : 0 ≤ q) (h1 : q ≤ k) :
    0 ≤ round32 q ∧ round32 q ≤ k := by
  refine ⟨round32_nonneg q h0, ?_⟩
  have h := round32_grid 0 k q
    (by rw [abs_of_nonneg h0, show ((0 : ℤ) + 24) = ((24 : ℕ) : ℤ) from rfl, zpow_natCast]
        exact lt_of_le_of_lt h1 hk)
    (by norm_num)
  simp only [zpow_zero, mul_one] at h
  exact h.1 h1

lemma round32_thousand : round32 1000 = 1000 := by
  have := round32_intCast 1000 (by norm_num [abs_of_pos])
  simpa using this

lemma round32_numParticles : round32 (numParticles : ℚ) = numParticles :=
  round32_intCast numParticles (by norm_num [numParticles, particleCount, abs_of_pos])

lemma round32_fifth : round32 0.2 = fifth32 := by
  unfold round32
  rw [roundBinary_eval 24 (-126) (-3) 13421773 _ (by norm_num [abs_of_pos])
    (by norm_num [abs_of_pos]) (by norm_num)
    (roundNearestEven_eval_hi _ _ (by norm_num) (by norm_num))]
  norm_num [fifth32]

lemma round64_eight_thirds : round64 (8.0 / 3.0) = 6004799503160661 / 2251799813685248 := by
  unfold round64
  rw [roundBinary_eval 53 (-1022) 1 6004799503160661 _ (by norm_num [abs_of_pos])
    (by norm_num [abs_of_pos]) (by norm_num)
    (roundNearestEven_eval_lo _ _ (by norm_num) (by norm_num))]
  norm_num

lemma round32_eight_thirds : round32 (round64 (8.0 / 3.0)) = 11184811 / 4194304 := by
  rw [round64_eight_thirds]
  unfold round32
  rw [roundBinary_eval 24 (-126) 1 11184811 _ (by norm_num [abs_of_pos])
    (by norm_num [abs_of_pos]) (by norm_num)
    (roundNearestEven_eval_hi _ _ (by norm_num) (by norm_num))]
  norm_num

lemma round32_tenth : round32 tenth32 = tenth32 := by
  unfold round32 tenth32
  rw [roundBinary_eval 24 (-126) (-4) 13421773 _ (by norm_num [abs_of_pos])
    (by norm_num [abs_of_pos]) (by norm_num)
    (roundNearestEven_eval_lo _ _ (by norm_num) (by norm_num))]
  norm_num

lemma round32_fifth32 : round32 fifth32 = fifth32 := by
  unfold round32 fifth32
  rw [roundBinary_eval 24 (-126) (-3) 13421773 _ (by norm_num [abs_of_pos])
    (by norm_num [abs_of_pos]) (by norm_num)
    (roundNearestEven_eval_lo _ _ (by norm_num) (by norm_num))]
  norm_num

lemma round32_tenth_add_tenth : round32 (tenth32 + tenth32) = fifth32 := by
  have e : tenth32 + tenth32 = fifth32 := by norm_num [tenth32, fifth32]
  rw [e, round32_fifth32]

/-- The float sum `0.2f + 0.1f`: the exact sum `40265319 / 2^27` lies between two floats
and is rounded up to `10066330 / 2^25`. -/
lemma round32_fifth_add_tenth : round32 (fifth32 + tenth32) = 5033165 / 16777216 := by
  unfold round32 fifth32 tenth32
  rw [roundBinary_eval 24 (-126) (-2) 10066330 _ (by norm_num [abs_of_pos])
    (by norm_num [abs_of_pos]) (by norm_num)
    (roundNearestEven_eval_hi _ _ (by norm_num) (by norm_num))]
  norm_num

/-! ## The frame -/

lemma truncToInt_of_nonneg {q : ℚ} (h : 0 ≤ q) : truncToInt q = ⌊q⌋ := by
  unfold truncToInt
  rw [Rat.floor_def]
  exact Int.tdiv_eq_ediv (Rat.num_nonneg.mpr h) (Int.ofNat_nonneg _)

lemma frame_time (s : Tunables) (inp : FrameInput) :
    (frame s inp).2.time =
      if (restartFires inp || inp.resetButton) = true then 0
      else round32 (s.time + inp.deltaTime) := by
  cases hr : restartFires inp <;> cases hb : inp.resetButton <;>
    simp [frame, guiPass, resetBranch, restartBranch, beforeRestart, advanceTime, guiSliders,
      hr, hb]

lemma frame_time_nonneg (s : Tunables) (inp : FrameInput) (hs : 0 ≤ s.time)
    (hd : 0 ≤ inp.deltaTime) : 0 ≤ (frame s inp).2.time := by
  rw [frame_time]
  split
  · exact le_refl 0
  · exact round32_nonneg _ (add_nonneg hs hd)

lemma foldl_time_nonneg (inputs : List FrameInput) :
    ∀ s : Tunables, 0 ≤ s.time → (∀ inp ∈ inputs, 0 ≤ inp.deltaTime) →
      0 ≤ (inputs.foldl (fun s inp => (frame s inp).2) s).time := by
  induction inputs with
  | nil => intro s hs _; simpa using hs
  | cons inp rest ih =>
    intro s hs h
    rw [List.foldl_cons]
    apply ih
    · exact frame_time_nonneg s inp hs (h inp (List.mem_cons_self _ _))
    · intro j hj
      exact h j (List.mem_cons_of_mem _ hj)

lemma startup_inBounds : InBounds startup := by
  simp only [InBounds, startup, round32_fifth, round32_eight_thirds, fifth32]
  norm_num

lemma resetBranch_inBounds (s : Tunables) : InBounds (resetBranch true s) := by
  simp only [InBounds, resetBranch, if_true, round32_fifth, round32_eight_thirds, fifth32]
  norm_num

lemma frame_inBounds (s : Tunables) (inp : FrameInput) (hs : InBounds s)
    (hi : SlidersInRange inp) : InBounds (frame s inp).2 := by
  show InBounds (guiPass inp s)
  unfold guiPass
  cases hb : inp.resetButton
  · obtain ⟨h1, h2, h3, h4, h5, h6⟩ := hs
    obtain ⟨i1, i2, i3, i4, i5, i6⟩ := hi
    have e3 : ((1.0 : ℚ)) = 1 := by norm_num
    rw [e3] at i3
    have k1 := i1 _ h1.1 h1.2
    have k2 := i2 _ h2.1 h2.2
    have k3 := i3 _ h3.1 h3.2
    have k4 := i4 _ h4.1 h4.2
    have k5 := i5 _ h5.1 h5.2
    have k6 := i6 _ h6.1 h6.2
    have e : ((1.0 : ℚ)) = 1 := by norm_num
    cases hr : restartFires inp <;>
      simp only [resetBranch, restartBranch, beforeRestart, advanceTime, guiSliders, InBounds,
        Bool.false_eq_true, if_false, if_true, e] <;>
      exact ⟨k1, k2, k3, k4, k5, k6⟩
  · exact resetBranch_inBounds _

lemma foldl_inBounds (inputs : List FrameInput) :
    ∀ s : Tunables, InBounds s → (∀ inp ∈ inputs, SlidersInRange inp) →
      InBounds (inputs.foldl (fun s inp => (frame s inp).2) s) := by
  induction inputs with
  | nil => intro s hs _; simpa using hs
  | cons inp rest ih =>
    intro s hs h
    rw [List.foldl_cons]
    apply ih
    · exact frame_inBounds s inp hs (h inp (List.mem_cons_self _ _))
    · intro j hj
      exact h j (List.mem_cons_of_mem _ hj)

lemma clampSlider_staysInRange (lo hi : ℚ) (h : lo ≤ hi) : StaysInRange clampSlider lo hi := by
  intro v _ _
  unfold clampSlider
  exact ⟨le_max_left _ _, max_le h (min_le_left _ _)⟩

lemma idle_staysInRange (lo hi : ℚ) : StaysInRange (fun v _ _ => v) lo hi := by
  intro v h1 h2
  exact ⟨h1, h2⟩

/-- The float value that main.c:93 truncates, for a slider value in `[0, 1000]`: it lies
in `[0, numParticles]` and within `1/64` of the exact product. -/
lemma instanceProduct_bounds (x : ℚ) (h0 : 0 ≤ x) (h1 : x ≤ 1000) :
    (0 ≤ round32 (round32 (x / round32 1000) * round32 (numParticles : ℚ)) ∧
      round32 (round32 (x / round32 1000) * round32 (numParticles : ℚ)) ≤ numParticles) ∧
    |round32 (round32 (x / round32 1000) * round32 (numParticles : ℚ))
        - x / 1000 * (numParticles : ℚ)| ≤ 1 / 64 := by
  rw [round32_thousand, round32_numParticles]
  have hN : (numParticles : ℚ) = 102400 := by norm_num [numParticles, particleCount]
  have hq0 : 0 ≤ x / 1000 := by positivity
  have hq1 : x / 1000 ≤ ((1 : ℤ) : ℚ) := by
    push_cast; rw [div_le_one (by norm_num)]; exact h1
  have ha := round32_mem_Icc 1 (x / 1000) (by norm_num) hq0 hq1
  have haerr : |round32 (x / 1000) - x / 1000| ≤ 2 ^ (-23 : ℤ) / 2 := by
    apply roundBinary_error 24 (-126) (-23) (x / 1000) _ (by norm_num)
    rw [abs_of_nonneg hq0]
    push_cast at hq1
    exact lt_of_le_of_lt hq1 (by norm_num)
  have hp0 : 0 ≤ round32 (x / 1000) * (numParticles : ℚ) :=
    mul_nonneg ha.1 (by rw [hN]; norm_num)
  have hp1 : round32 (x / 1000) * (numParticles : ℚ) ≤ ((numParticles : ℤ) : ℚ) := by
    have := mul_le_mul_of_nonneg_right ha.2 (show (0 : ℚ) ≤ (numParticles : ℚ) by rw [hN]; norm_num)
    push_cast at this
    simpa using this
  have hb := round32_mem_Icc numParticles _ (by rw [hN]; norm_num) hp0 hp1
  have hberr : |round32 (round32 (x / 1000) * (numParticles : ℚ))
      - round32 (x / 1000) * (numParticles : ℚ)| ≤ 2 ^ (-7 : ℤ) / 2 := by
    apply roundBinary_error 24 (-126) (-7) _ _ (by norm_num)
    rw [abs_of_nonneg hp0]
    exact lt_of_le_of_lt hp1 (by rw [hN]; norm_num)
  refine ⟨hb, ?_⟩
  have e : round32 (round32 (x / 1000) * (numParticles : ℚ)) - x / 1000 * (numParticles : ℚ)
      = (round32 (round32 (x / 1000) * (numParticles : ℚ))
          - round32 (x / 1000) * (numParticles : ℚ))
        + (round32 (x / 1000) - x / 1000) * (numParticles : ℚ) := by ring
  rw [e]
  refine le_trans (abs_add _ _) ?_
  rw [abs_mul, hN, abs_of_pos (show (0 : ℚ) < 102400 by norm_num)]
  rw [hN] at hberr
  have h3 : |round32 (x / 1000) - x / 1000| * 102400 ≤ 2 ^ (-23 : ℤ) / 2 * 102400 :=
    mul_le_mul_of_nonneg_right haerr (by norm_num)
  have h4 : (2 : ℚ) ^ (-7 : ℤ) / 2 + 2 ^ (-23 : ℤ) / 2 * 102400 ≤ 1 / 64 := by norm_num
  linarith

lemma numInstances_eq_floor_float (x : ℚ) (h0 : 0 ≤ x) (h1 : x ≤ 1000) :
    numInstances x numParticles
      = ⌊round32 (round32 (x / round32 1000) * round32 (numParticles : ℚ))⌋ :=
  truncToInt_of_nonneg (instanceProduct_bounds x h0 h1).1.1

lemma numInstances_mem (x : ℚ) (h0 : 0 ≤ x) (h1 : x ≤ 1000) :
    0 ≤ numInstances x numParticles ∧ numInstances x numParticles ≤ numParticles := by
  rw [numInstances_eq_floor_float x h0 h1]
  have hb := (instanceProduct_bounds x h0 h1).1
  exact ⟨Int.floor_nonneg.mpr hb.1, by
    have := Int.floor_le_floor hb.2
    simpa using this⟩

/-- C1: a frame in which the Reset button fires ends with every tunable equal to its
startup initialiser, whatever the state at the start of the frame, the frame time,
the slider edits and the Restart trigger were. -/
theorem reset_restores_startup (s : Tunables) (inp : FrameInput)
    (h : inp.resetButton = true) : (frame s inp).2 = startup := by
  simp [frame, guiPass, resetBranch, h, startup]

theorem reset_restores_startup_witness :
    resetInput.resetButton = true ∧
      (frame { startup with time := 3, sigma := 55, instances_x1000 := 1000 } resetInput).2
        = startup :=
  ⟨rfl, reset_restores_startup _ _ rfl⟩

/-- C2: in a frame where Restart fires (button or space key) and Reset does not, the
Restart branch sets elapsed time to 0 and leaves timeScale, sigma, rho, beta,
particleScale and instances_x1000 at the values they had immediately before it; these
are also the values at the end of the frame. -/
theorem restart_zeroes_time_only (s : Tunables) (inp : FrameInput)
    (hrestart : restartFires inp = true) (hreset : inp.resetButton = false) :
    restartBranch (restartFires inp) (beforeRestart inp s)
        = { beforeRestart inp s with time := 0 } ∧
      (frame s inp).2 = restartBranch (restartFires inp) (beforeRestart inp s) ∧
      (frame s inp).2.time = 0 ∧
      (frame s inp).2.timeScale = (beforeRestart inp s).timeScale ∧
      (frame s inp).2.sigma = (beforeRestart inp s).sigma ∧
      (frame s inp).2.rho = (beforeRestart inp s).rho ∧
      (frame s inp).2.beta = (beforeRestart inp s).beta ∧
      (frame s inp).2.particleScale = (beforeRestart inp s).particleScale ∧
      (frame s inp).2.instances_x1000 = (beforeRestart inp s).instances_x1000 := by
  simp [frame, guiPass, resetBranch, restartBranch, hrestart, hreset]

theorem restart_zeroes_time_only_witness :
    restartFires { idleInput 2 with spacePressed := true } = true ∧
    ({ idleInput 2 with spacePressed := true }).resetButton = false ∧
    (frame { startup with time := 9, rho := 13 } { idleInput 2 with spacePressed := true }).2
      = { startup with time := 0, rho := 13 } := by
  have h := restart_zeroes_time_only { startup with time := 9, rho := 13 }
    { idleInput 2 with spacePressed := true } rfl rfl
  refine ⟨rfl, rfl, ?_⟩
  rw [h.2.1, h.1]
  simp [beforeRestart, advanceTime, guiSliders, idleInput]

/-! ## Instance count -/

/-- C3 (counterexample): at the slider value 265.0 the float quotient 265/1000 is rounded
down, the float product is 27135.998..., and the frame draws 27135 instances, while
floor(265 / 1000 * numParticles) is 27136. -/
theorem numInstances_ne_floor_at_265 :
    ((0 : ℚ) ≤ 265 ∧ (265 : ℚ) ≤ 1000 ∧ round32 265 = 265) ∧
      (frame { startup with instances_x1000 := 265 } (idleInput 0)).1.drawInstances = 27135 ∧
      ⌊(265 : ℚ) / 1000 * (numParticles : ℚ)⌋ = 27136 ∧
      (frame { startup with instances_x1000 := 265 } (idleInput 0)).1.drawInstances
        ≠ ⌊(265 : ℚ) / 1000 * (numParticles : ℚ)⌋ := by
  have hN : (numParticles : ℚ) = 102400 := by norm_num [numParticles, particleCount]
  have hrep : round32 265 = 265 := by
    have := round32_intCast 265 (by norm_num [abs_of_pos])
    simpa using this
  have h1 : round32 (265 / 1000) = 2222981 / 8388608 := by
    unfold round32
    rw [roundBinary_eval 24 (-126) (-2) 8891924 _ (by norm_num [abs_of_pos])
      (by norm_num [abs_of_pos]) (by norm_num)
      (roundNearestEven_eval_lo _ _ (by norm_num) (by norm_num))]
    norm_num
  have h2 : round32 (2222981 / 8388608 * 102400) = 13893631 / 512 := by
    unfold round32
    rw [roundBinary_eval 24 (-126) 14 13893631 _ (by norm_num [abs_of_pos])
      (by norm_num [abs_of_pos]) (by norm_num)
      (roundNearestEven_eval_lo _ _ (by norm_num) (by norm_num))]
    norm_num
  have hcode : numInstances 265 numParticles = 27135 := by
    rw [numInstances_eq_floor_float 265 (by norm_num) (by norm_num), round32_thousand,
      round32_numParticles, hN, h1, h2, Int.floor_eq_iff]
    norm_num
  have hspec : ⌊(265 : ℚ) / 1000 * (numParticles : ℚ)⌋ = 27136 := by
    rw [hN, Int.floor_eq_iff]
    norm_num
  have hframe : (frame { startup with instances_x1000 := 265 } (idleInput 0)).1.drawInstances
      = 27135 := hcode
  refine ⟨⟨by norm_num, by norm_num, hrep⟩, hframe, hspec, ?_⟩
  rw [hframe, hspec]
  decide

/-- C3 (amended): for a slider value in [0, 1000] the instance count passed to the draw
call is the floor of the float value of instances_x1000/1000*numParticles (quotient and
product each rounded to binary32); it differs from floor(fraction * numParticles) by at
most 1. -/
theorem numInstances_within_one_of_floor (s : Tunables) (inp : FrameInput)
    (h0 : 0 ≤ s.instances_x1000) (h1 : s.instances_x1000 ≤ 1000) :
    (frame s inp).1.drawInstances = truncToInt
        (round32 (round32 (s.instances_x1000 / 1000) * (numParticles : ℚ))) ∧
      (frame s inp).1.drawInstances
        = ⌊round32 (round32 (s.instances_x1000 / 1000) * (numParticles : ℚ))⌋ ∧
      |(frame s inp).1.drawInstances - ⌊s.instances_x1000 / 1000 * (numParticles : ℚ)⌋| ≤ 1 := by
  have hb := instanceProduct_bounds s.instances_x1000 h0 h1
  have hfl := numInstances_eq_floor_float s.instances_x1000 h0 h1
  have hd : (frame s inp).1.drawInstances = numInstances s.instances_x1000 numParticles := rfl
  rw [round32_thousand, round32_numParticles] at hb hfl
  refine ⟨?_, hd.trans hfl, ?_⟩
  · rw [hd]
    unfold numInstances
    rw [round32_thousand, round32_numParticles]
  · rw [hd, hfl]
    obtain ⟨-, herr⟩ := hb
    rw [abs_le] at herr
    have hup : ⌊round32 (round32 (s.instances_x1000 / 1000) * (numParticles : ℚ))⌋
        ≤ ⌊s.instances_x1000 / 1000 * (numParticles : ℚ)⌋ + 1 := by
      rw [← Int.floor_add_one]
      exact Int.floor_le_floor (by linarith)
    have hdn : ⌊s.instances_x1000 / 1000 * (numParticles : ℚ)⌋
        ≤ ⌊round32 (round32 (s.instances_x1000 / 1000) * (numParticles : ℚ))⌋ + 1 := by
      rw [← Int.floor_add_one]
      exact Int.floor_le_floor (by linarith)
    rw [abs_le]
    constructor <;> omega

theorem numInstances_within_one_of_floor_witness :
    (0 : ℚ) ≤ ({ startup with instances_x1000 := 265 } : Tunables).instances_x1000 ∧
      ({ startup with instances_x1000 := 265 } : Tunables).instances_x1000 ≤ 1000 ∧
      |(frame { startup with instances_x1000 := 265 } (idleInput 0)).1.drawInstances
        - ⌊(265 : ℚ) / 1000 * (numParticles : ℚ)⌋| ≤ 1 :=
  ⟨by norm_num, by norm_num,
    (numInstances_within_one_of_floor { startup with instances_x1000 := 265 } (idleInput 0)
      (by norm_num) (by norm_num)).2.2⟩

/-- C4: for a slider value in [0, 1000] the instance count passed to the instanced draw
call lies in [0, numParticles], so every instance index is a valid index of the position
and velocity buffers; at the slider maximum 1000 the draw call receives numParticles, at
0 it receives 0. -/
theorem numInstances_within_buffers (s : Tunables) (inp : FrameInput) (rnd : ℕ → ℤ)
    (h0 : 0 ≤ s.instances_x1000) (h1 : s.instances_x1000 ≤ 1000) :
    (0 ≤ (frame s inp).1.drawInstances ∧ (frame s inp).1.drawInstances ≤ numParticles) ∧
      (∀ k : ℤ, 0 ≤ k → k < (frame s inp).1.drawInstances →
        k.toNat < (initParticles rnd numParticles).positions.length ∧
        k.toNat < (initParticles rnd numParticles).velocities.length) ∧
      (s.instances_x1000 = 1000 → (frame s inp).1.drawInstances = numParticles) ∧
      (s.instances_x1000 = 0 → (frame s inp).1.drawInstances = 0) := by
  have hd : (frame s inp).1.drawInstances = numInstances s.instances_x1000 numParticles := rfl
  have hm := numInstances_mem s.instances_x1000 h0 h1
  rw [← hd] at hm
  have hone : round32 1 = 1 := by
    have := round32_intCast 1 (by norm_num [abs_of_pos])
    simpa using this
  have hzero : round32 0 = 0 := roundBinary_zero _ _
  refine ⟨hm, ?_, ?_, ?_⟩
  · intro k hk0 hk
    have hkn : k < numParticles := lt_of_lt_of_le hk hm.2
    have hlt : k.toNat < numParticles.toNat := by
      have hnp : (0 : ℤ) < numParticles := by norm_num [numParticles, particleCount]
      omega
    simpa [initParticles] using hlt
  · intro hx
    rw [hd, numInstances_eq_floor_float _ h0 h1, hx, round32_thousand, round32_numParticles,
      div_self (by norm_num), hone, one_mul, round32_numParticles]
    exact Int.floor_intCast _
  · intro hx
    rw [hd, numInstances_eq_floor_float _ h0 h1, hx, zero_div, hzero, zero_mul, hzero]
    exact Int.floor_zero

theorem numInstances_within_buffers_witness :
    ((0 : ℚ) ≤ ({ startup with instances_x1000 := 1000 } : Tunables).instances_x1000 ∧
      ({ startup with instances_x1000 := 1000 } : Tunables).instances_x1000 ≤ 1000) ∧
      (0 ≤ (frame { startup with instances_x1000 := 1000 } (idleInput 0)).1.drawInstances ∧
        (frame { startup with instances_x1000 := 1000 } (idleInput 0)).1.drawInstances
          ≤ numParticles) ∧
      (frame { startup with instances_x1000 := 1000 } (idleInput 0)).1.drawInstances
        = numParticles := by
  have h := numInstances_within_buffers { startup with instances_x1000 := 1000 } (idleInput 0)
    (fun _ => 0) (by norm_num) (by norm_num)
  exact ⟨⟨by norm_num, by norm_num⟩, h.1, h.2.2.1 rfl⟩

/-! ## Dispatch -/

/-- C9 (counterexample): three frames with frame time 0.1f and no button. After two of them
time is 0.2f; the third ends with time 5033165/16777216, which is not 0.2f + 0.1f
(that sum, 40265319/134217728, is not a float). -/
theorem time_not_exact_sum :
    (round32 tenth32 = tenth32 ∧ restartFires (idleInput tenth32) = false ∧
        (idleInput tenth32).resetButton = false) ∧
      (run [idleInput tenth32, idleInput tenth32]).time = fifth32 ∧
      (frame (run [idleInput tenth32, idleInput tenth32]) (idleInput tenth32)).2.time
        = 5033165 / 16777216 ∧
      (frame (run [idleInput tenth32, idleInput tenth32]) (idleInput tenth32)).2.time
        ≠ (run [idleInput tenth32, idleInput tenth32]).time + (idleInput tenth32).deltaTime := by
  have hf : ∀ s : Tunables, (frame s (idleInput tenth32)).2.time = round32 (s.time + tenth32) := by
    intro s
    rw [frame_time]
    rfl
  have h2 : (run [idleInput tenth32, idleInput tenth32]).time = fifth32 := by
    show (frame (frame startup (idleInput tenth32)).2 (idleInput tenth32)).2.time = fifth32
    rw [hf, hf]
    have h0 : startup.time = 0 := rfl
    rw [h0, zero_add, round32_tenth, round32_tenth_add_tenth]
  have h3 : (frame (run [idleInput tenth32, idleInput tenth32]) (idleInput tenth32)).2.time
      = 5033165 / 16777216 := by
    rw [hf, h2, round32_fifth_add_tenth]
  refine ⟨⟨round32_tenth, rfl, rfl⟩, h2, h3, ?_⟩
  rw [h3, h2]
  show (5033165 / 16777216 : ℚ) ≠ fifth32 + tenth32
  norm_num [fifth32, tenth32]

/-- C9 (amended): a frame in which neither Restart nor Reset fires ends with time equal to
the float sum of the time at its start and its frame time, that is the exact sum rounded
to binary32 (equal to the exact sum when that is a float, and within a relative error of
2^-24 of it in the normal range); a frame in which either fires ends with time 0,
whatever its frame time; so the integrator receives time 0 in the first frame and in the
frame that follows a Restart or Reset. -/
theorem time_advances_unless_reset (s : Tunables) (inp next : FrameInput) :
    ((restartFires inp || inp.resetButton) = false → FitsF32 (s.time + inp.deltaTime) →
        (frame s inp).2.time = round32 (s.time + inp.deltaTime) ∧
        (round32 (s.time + inp.deltaTime) = s.time + inp.deltaTime →
          (frame s inp).2.time = s.time + inp.deltaTime) ∧
        ((2 : ℚ) ^ (-126 : ℤ) ≤ |s.time + inp.deltaTime| →
          |(frame s inp).2.time - (s.time + inp.deltaTime)|
            ≤ |s.time + inp.deltaTime| / 2 ^ 24)) ∧
      ((restartFires inp || inp.resetButton) = true →
        (frame s inp).2.time = 0 ∧ (frame (frame s inp).2 next).1.uniforms.time = 0) ∧
      (frame startup inp).1.uniforms.time = 0 ∧
      ((frame s inp).1.uniforms.time = s.time ∧
        (frame s inp).1.uniforms.deltaTime = inp.deltaTime) := by
  refine ⟨?_, ?_, rfl, ⟨rfl, rfl⟩⟩
  · intro hf _
    have ht : (frame s inp).2.time = round32 (s.time + inp.deltaTime) := by
      rw [frame_time, hf]
      simp
    refine ⟨ht, fun hrep => ht.trans hrep, fun hnorm => ?_⟩
    rw [ht]
    have := roundBinary_rel_error 24 (-126) (s.time + inp.deltaTime) hnorm
    rw [show (24 : ℤ) = ((24 : ℕ) : ℤ) from rfl, zpow_natCast] at this
    exact this
  · intro hf
    have ht : (frame s inp).2.time = 0 := by
      rw [frame_time, if_pos hf]
    exact ⟨ht, ht⟩

theorem time_advances_unless_reset_witness :
    FitsF32 (fifth32 + tenth32) ∧
      (frame { startup with time := fifth32 } (idleInput tenth32)).2.time
        = 5033165 / 16777216 ∧
      (frame { startup with time := fifth32 } spaceInput).2.time = 0 := by
  have h := time_advances_unless_reset { startup with time := fifth32 } (idleInput tenth32)
    (idleInput 0)
  have hs := time_advances_unless_reset { startup with time := fifth32 } spaceInput
    (idleInput 0)
  have hfit : FitsF32 (fifth32 + tenth32) := by
    unfold FitsF32 fifth32 tenth32
    norm_num [abs_of_pos]
  refine ⟨hfit, ?_, (hs.2.1 rfl).1⟩
  rw [(h.1 rfl hfit).1]
  exact round32_fifth_add_tenth

/-- C6: elapsed time is never negative. After any sequence of frames from startup whose
frame times are all non-negative (with arbitrary slider edits, Restart and Reset), time
is non-negative at the end of the last frame, and so is the time uniform that the next
frame passes to the integrator. -/
theorem time_nonneg (inputs : List FrameInput) (next : FrameInput)
    (h : ∀ inp ∈ inputs, 0 ≤ inp.deltaTime) :
    0 ≤ (run inputs).time ∧ 0 ≤ (frame (run inputs) next).1.uniforms.time := by
  have h0 : 0 ≤ (run inputs).time :=
    foldl_time_nonneg inputs startup (by norm_num [startup]) h
  exact ⟨h0, h0⟩

theorem time_nonneg_witness :
    (∀ inp ∈ [idleInput 3, spaceInput, idleInput (1 / 60)], 0 ≤ inp.deltaTime) ∧
      0 ≤ (run [idleInput 3, spaceInput, idleInput (1 / 60)]).time ∧
      0 ≤ (frame (run [idleInput 3, spaceInput, idleInput (1 / 60)])
        (idleInput 0)).1.uniforms.time := by
  have hin : ∀ inp ∈ [idleInput 3, spaceInput, idleInput (1 / 60)], 0 ≤ inp.deltaTime := by
    intro inp hinp
    simp only [List.mem_cons, List.mem_singleton, List.not_mem_nil, or_false] at hinp
    rcases hinp with rfl | rfl | rfl <;> norm_num [idleInput, spaceInput]
  exact ⟨hin, time_nonneg _ (idleInput 0) hin⟩

/-- C7: if every slider keeps a value of its range inside its range, then in every state
reached from startup the tunables lie in the slider ranges: instances_x1000 in [0, 1000],
particleScale in [0, 5], timeScale in [0, 1], sigma in [0, 20], rho in [0, 30], beta in
[0, 10]. The startup initialisers and the values written by Reset lie in these ranges. -/
theorem tunables_in_slider_ranges (inputs : List FrameInput)
    (h : ∀ inp ∈ inputs, SlidersInRange inp) :
    InBounds (run inputs) ∧ InBounds startup ∧ ∀ s : Tunables, InBounds (resetBranch true s) :=
  ⟨foldl_inBounds inputs startup startup_inBounds h, startup_inBounds, resetBranch_inBounds⟩

theorem tunables_in_slider_ranges_witness :
    (∀ inp ∈ [editInput, resetInput], SlidersInRange inp) ∧
      InBounds (run [editInput, resetInput]) := by
  have hin : ∀ inp ∈ [editInput, resetInput], SlidersInRange inp := by
    intro inp hinp
    simp only [List.mem_cons, List.mem_singleton, List.not_mem_nil, or_false] at hinp
    rcases hinp with rfl | rfl
    · refine ⟨idle_staysInRange _ _, idle_staysInRange _ _, idle_staysInRange _ _,
        clampSlider_staysInRange _ _ (by norm_num), ?_, idle_staysInRange _ _⟩
      intro v _ _
      show (0 : ℚ) ≤ 30 ∧ (30 : ℚ) ≤ 30
      norm_num
    · exact ⟨idle_staysInRange _ _, idle_staysInRange _ _, idle_staysInRange _ _,
        idle_staysInRange _ _, idle_staysInRange _ _, idle_staysInRange _ _⟩
  exact ⟨hin, (tunables_in_slider_ranges _ hin).1⟩

/-! ## Particle initialisation -/

end GpuParticles
